import Mathlib

/-!
Verification of the chunked, rate-limited retrieval-and-persistence pipeline
of the Zerodha historical-data fetcher.

Time instants are modelled as integer Unix seconds (Go `time.Time` at second
granularity; the chunker only ever adds whole days and one second, so second
granularity is exact).  Prices are modelled as integers: the pipeline never
performs arithmetic on price fields, it only moves them between records, so
the carrier type is irrelevant to every property proved here.
-/

namespace Zerodha

/-- One OHLCV sample (`kiteconnect.HistoricalData`): Date, Open, High, Low,
Close, Volume.  The Go field `Open` is spelt `openPrice` here (and the others
follow suit) because `open` is a Lean keyword. -/
structure Candle where
  date : Int
  openPrice : Int
  highPrice : Int
  lowPrice : Int
  closePrice : Int
  volume : Int
deriving DecidableEq, Repr

/-- A stored row: a candle tagged with its owning instrument symbol
(the `ohlcv` table row / StorageRecord). -/
abbrev Row := String × Candle

/-! ## IntervalCalendar (src/unnamed/part_002, kite package) -/

/-- `IntradayMaxDays`: max days per request for minute/intraday data. -/
def IntradayMaxDays : Int := 60

/-- `DailyChunkDays`: chunk size for daily+ data (5 years). -/
def DailyChunkDays : Int := 2000

/-- `parseIntervalMinutes`: minutes per sample for a named interval,
defaulting to 1 minute for unknown tokens (the Go source looks the token up
in a literal map with these nine keys). -/
def parseIntervalMinutes (interval : String) : Nat :=
  if interval = "minute" then 1
  else if interval = "3minute" then 3
  else if interval = "5minute" then 5
  else if interval = "10minute" then 10
  else if interval = "15minute" then 15
  else if interval = "30minute" then 30
  else if interval = "60minute" then 60
  else if interval = "hour" then 60
  else if interval = "day" then 1440
  else 1

/-- `IsDailyOrLarger`: whether the interval is daily data or larger. -/
def IsDailyOrLarger (interval : String) : Bool :=
  parseIntervalMinutes interval ≥ 1440

/-- The chunk window selected by `GenerateDateChunks` for an interval,
in seconds (`chunkSize` in the Go source, a `time.Duration` of whole days). -/
def chunkSizeSeconds (interval : String) : Int :=
  if IsDailyOrLarger interval then DailyChunkDays * 24 * 3600
  else IntradayMaxDays * 24 * 3600

/-! ## Chunker (src/unnamed/part_002, `GenerateDateChunks`)

The Go loop runs while `currentStart.Before(to)`.  It is embedded with a fuel
parameter bounding the iteration count; `GenerateDateChunks` hands it
`(to - from).toNat` fuel, which is proved sufficient below
(every iteration advances `currentStart` by at least one second). -/

/-- The end of the chunk starting at `currentStart`:
`currentEnd := currentStart.Add(chunkSize)`, clamped back to `tend` when it
overshoots (`if currentEnd.After(to) ... currentEnd = to`). -/
def chunkEnd (chunkSize tend currentStart : Int) : Int :=
  if currentStart + chunkSize > tend then tend else currentStart + chunkSize

/-- One chunk-emitting loop of `GenerateDateChunks`:
while `currentStart < to`, emit `(currentStart, chunkEnd ...)` and restart
from one second past the chunk end (`currentEnd.Add(time.Second)`). -/
def chunkLoop (chunkSize tend : Int) : Nat → Int → List (Int × Int)
  | 0, _ => []
  | fuel + 1, currentStart =>
    if currentStart < tend then
      (currentStart, chunkEnd chunkSize tend currentStart) ::
        chunkLoop chunkSize tend fuel (chunkEnd chunkSize tend currentStart + 1)
    else []

/-- `GenerateDateChunks from to interval` (the Go identifiers `from`/`to` are
Lean keywords-adjacent, hence `f`/`t`). -/
def GenerateDateChunks (f t : Int) (interval : String) : List (Int × Int) :=
  chunkLoop (chunkSizeSeconds interval) t (t - f).toNat f

/-! ## Calendar dates

`time.Parse("2006-01-02", s)` yields midnight UTC of a civil date; this is
the standard days-from-civil conversion, valid for all dates of interest
(years ≥ 1970). -/

/-- Days from the Unix epoch (1970-01-01) to the civil date `y-m-d`. -/
def daysFromCivil (y m d : Nat) : Nat :=
  let y' := if m ≤ 2 then y - 1 else y
  let era := y' / 400
  let yoe := y' - era * 400
  let doy := (153 * (if m > 2 then m - 3 else m + 9) + 2) / 5 + d - 1
  let doe := yoe * 365 + yoe / 4 - yoe / 100 + doy
  era * 146097 + doe - 719468

/-- Midnight UTC of a civil date, in Unix seconds. -/
def dateUTC (y m d : Nat) : Int := (daysFromCivil y m d : Int) * 86400

/-! ## RateLimiter and DataSource (src/internal/kite/client.go)

The Go `Client.GetHistoricalData` waits on its token-bucket limiter and then
performs the network call.  Timing is not modelled; what matters to the
claims is which context the wait observes and how a cancelled context is
surfaced. -/

/-- A Go `context.Context`, reduced to the one observable the limiter wait
consults: whether the context has been cancelled. -/
structure Context where
  cancelled : Bool
deriving DecidableEq, Repr

/-- `context.Background()`: a context that is never cancelled. -/
def Context.background : Context := ⟨false⟩

/-- `rate.Limiter.Wait ctx`: blocks until a token is available; returns an
error exactly when the supplied context is cancelled while waiting. -/
def limiterWait (ctx : Context) : Except String Unit :=
  if ctx.cancelled then Except.error "context canceled" else Except.ok ()

/-- `Client.GetHistoricalData`: waits on the rate limiter with
`context.Background()` - the Go method takes no context argument, so the
caller's context `callerCtx` never reaches the wait - then performs the API
call, whose outcome is the oracle `api`. -/
def getHistoricalData (callerCtx : Context)
    (api : Except String (List Candle)) : Except String (List Candle) :=
  match limiterWait Context.background with
  | Except.error e => Except.error ("rate limiter error: " ++ e)
  | Except.ok _ =>
    match api with
    | Except.error e => Except.error ("API error: " ++ e)
    | Except.ok candles => Except.ok candles

/-! ## StorageSink (src/internal/storage)

Effects outside the program are oracles: `execOk c` / `writeOk c` say
whether the row-level `stmt.Exec` / `writer.Write` for candle `c` succeeds,
`marshalOk c` whether `c` is serialisable by `json.Marshal` (which fails on
the whole array if any element is not), and the `DBEnv` fields whether the
transaction-level driver calls succeed. -/

/-- Health of the driver calls enclosing one database `StoreCandles`. -/
structure DBEnv where
  beginOk : Bool
  prepareOk : Bool
  commitOk : Bool
deriving DecidableEq, Repr

/-- The `ohlcv` row written for one candle: the candle tagged with its
owning instrument symbol. -/
def toRow (instrumentSymbol : String) (c : Candle) : Row := (instrumentSymbol, c)

/-- The per-candle insert loop shared by the SQLite and DuckDB stores: a
failing `stmt.Exec` is logged and skipped, a success bumps `inserted` and
adds a row. -/
def insertLoop (execOk : Candle → Bool) (instrumentSymbol : String) :
    List Candle → Nat × List Row
  | [] => (0, [])
  | c :: rest =>
    let r := insertLoop execOk instrumentSymbol rest
    if execOk c then (r.1 + 1, toRow instrumentSymbol c :: r.2) else r

/-- `SQLiteStore.StoreCandles`: one transaction around the insert loop; a
failed `Begin`/`Prepare` aborts with `(0, err)`; a failed `Commit` rolls the
inserts back (`rows` unchanged) and returns `(0, err)`; otherwise the count
of successfully executed inserts is returned and their rows are durable. -/
def SQLiteStore.StoreCandles (env : DBEnv) (execOk : Candle → Bool)
    (instrumentSymbol : String) (candles : List Candle) (rows : List Row) :
    Except String (Nat × List Row) :=
  if !env.beginOk then Except.error "DB transaction error"
  else if !env.prepareOk then Except.error "DB prepare error"
  else
    let r := insertLoop execOk instrumentSymbol candles
    if !env.commitOk then Except.error "commit error"
    else Except.ok (r.1, rows ++ r.2)

/-- `DuckDBStore.StoreCandles`: textually the same transaction, insert loop
and commit structure as the SQLite store. -/
def DuckDBStore.StoreCandles (env : DBEnv) (execOk : Candle → Bool)
    (instrumentSymbol : String) (candles : List Candle) (rows : List Row) :
    Except String (Nat × List Row) :=
  if !env.beginOk then Except.error "DB transaction error"
  else if !env.prepareOk then Except.error "DB prepare error"
  else
    let r := insertLoop execOk instrumentSymbol candles
    if !env.commitOk then Except.error "commit error"
    else Except.ok (r.1, rows ++ r.2)

/-- The CSV header row written on file creation. -/
def csvHeader : List String :=
  ["instrument", "timestamp", "open", "high", "low", "close", "volume"]

/-- The CSV record for one candle, fields stringified as in the source
(the timestamp rendering differs textually but carries the same value). -/
def csvRecord (instrumentSymbol : String) (c : Candle) : List String :=
  [instrumentSymbol, toString c.date, toString c.openPrice, toString c.highPrice,
    toString c.lowPrice, toString c.closePrice, toString c.volume]

/-- The per-candle write loop of `CSVStore.StoreCandles`: a failing
`writer.Write` is logged and skipped, a success bumps `inserted`. -/
def csvWriteLoop (writeOk : Candle → Bool) (instrumentSymbol : String) :
    List Candle → Nat × List (List String)
  | [] => (0, [])
  | c :: rest =>
    let r := csvWriteLoop writeOk instrumentSymbol rest
    if writeOk c then (r.1 + 1, csvRecord instrumentSymbol c :: r.2) else r

/-- The rows the opened CSV file starts from: the existing content when the
`os.Stat` existence probe succeeds, a fresh header row otherwise. -/
def csvBase : Option (List (List String)) → List (List String)
  | none => [csvHeader]
  | some rws => rws

/-- `CSVStore.StoreCandles` acting on the per-instrument file (`none` means
the file does not exist): open in create-append mode, write the header only
when the file did not exist, then append the candle records. -/
def CSVStore.StoreCandles (writeOk : Candle → Bool) (instrumentSymbol : String)
    (file : Option (List (List String))) (candles : List Candle) :
    Except String (Nat × List (List String)) :=
  let r := csvWriteLoop writeOk instrumentSymbol candles
  Except.ok (r.1, csvBase file ++ r.2)

/-- The per-instrument JSON file: absent, a valid JSON array of candles, or
content that does not parse as one. -/
inductive JsonFile
  | absent
  | valid (records : List Candle)
  | corrupt
deriving DecidableEq, Repr

/-- The existing-data load of `JSONStore.StoreCandles`: a missing file or a
failed `json.Unmarshal` both leave `existingData` empty - the unmarshal
error value is discarded unchecked. -/
def jsonExistingData : JsonFile → List Candle
  | JsonFile.absent => []
  | JsonFile.valid records => records
  | JsonFile.corrupt => []

/-- `JSONStore.StoreCandles` acting on the per-instrument file: load
existing data (ignoring parse errors), append the new candles, marshal and
rewrite the whole file.  On marshal failure nothing is written and the call
returns `(0, err)`; on success it returns `len(candles)` - no per-record
validity check of any kind is performed. -/
def JSONStore.StoreCandles (marshalOk : Candle → Bool)
    (file : JsonFile) (candles : List Candle) :
    Except String (Nat × JsonFile) :=
  let existingData := jsonExistingData file
  let allData := existingData ++ candles
  if allData.all marshalOk then
    Except.ok (candles.length, JsonFile.valid allData)
  else Except.error "failed to marshal JSON data"

/-- Database state visible to `Init`: whether the `ohlcv` table exists, and
its rows. -/
structure DBState where
  tableExists : Bool
  rows : List Row
deriving DecidableEq, Repr

/-- Directory state visible to the file stores' `Init`: whether the base
directory exists and which instrument files it holds (`os.MkdirAll` never
touches files). -/
structure DirState where
  dirExists : Bool
  files : List String
deriving DecidableEq, Repr

/-- `SQLiteStore.Init`: `CREATE TABLE IF NOT EXISTS ohlcv (...)` - creates
the table when missing, keeps an existing table and its rows; fails only
when the driver call fails (`ioOk = false`). -/
def SQLiteStore.Init (ioOk : Bool) (s : DBState) : Except String DBState :=
  if ioOk then Except.ok { s with tableExists := true }
  else Except.error "failed to create SQLite table"

/-- `DuckDBStore.Init`: same `CREATE TABLE IF NOT EXISTS` shape. -/
def DuckDBStore.Init (ioOk : Bool) (s : DBState) : Except String DBState :=
  if ioOk then Except.ok { s with tableExists := true }
  else Except.error "failed to create DuckDB table"

/-- `CSVStore.Init`: `os.MkdirAll(basePath, 0755)` - creates the base
directory when missing, succeeds when it already exists. -/
def CSVStore.Init (ioOk : Bool) (s : DirState) : Except String DirState :=
  if ioOk then Except.ok { s with dirExists := true }
  else Except.error "failed to create CSV storage directory"

/-- `JSONStore.Init`: same `os.MkdirAll` shape. -/
def JSONStore.Init (ioOk : Bool) (s : DirState) : Except String DirState :=
  if ioOk then Except.ok { s with dirExists := true }
  else Except.error "failed to create JSON storage directory"

/-- The four concrete store kinds of `storage.NewStore`. -/
inductive StoreKind
  | duckdb
  | sqlite
  | json
  | csv
deriving DecidableEq, Repr

/-- `NewStore`: switch on the storage-type token; the `default` arm hands
any unrecognised token to the DuckDB constructor.  `openOk` is whether the
underlying `sql.Open` succeeds - the only failure the database constructors
can produce; the file-store constructors never fail. -/
def NewStore (openOk : Bool) (storageType : String) : Except String StoreKind :=
  if storageType = "duckdb" then
    if openOk then Except.ok StoreKind.duckdb
    else Except.error "duckdb connection failed"
  else if storageType = "sqlite" then
    if openOk then Except.ok StoreKind.sqlite
    else Except.error "sqlite connection failed"
  else if storageType = "json" then Except.ok StoreKind.json
  else if storageType = "csv" then Except.ok StoreKind.csv
  else
    if openOk then Except.ok StoreKind.duckdb
    else Except.error "duckdb connection failed"

/-! ## FetchOrchestrator (src/internal/cli/fetch.go, `runFetchingLoop`) -/

/-- The per-chunk body of `runFetchingLoop` over one instrument's chunk
list: a fetch error is skipped with `continue`, an empty result is skipped
with `continue`, a storage error forfeits that chunk's count but processing
continues, and a successful store adds its inserted count.  `σ` is the
storage backend's state; `store` returns the possibly-failed inserted count
and the new state. -/
def processChunks {σ : Type} (fetch : Int × Int → Except String (List Candle))
    (store : List Candle → σ → Except String Nat × σ) :
    List (Int × Int) → σ → Nat × σ
  | [], s => (0, s)
  | chunk :: rest, s =>
    match fetch chunk with
    | Except.error _ => processChunks fetch store rest s
    | Except.ok [] => processChunks fetch store rest s
    | Except.ok candles =>
      match store candles s with
      | (Except.error _, s') => processChunks fetch store rest s'
      | (Except.ok inserted, s') =>
        let r := processChunks fetch store rest s'
        (inserted + r.1, r.2)

/-- `runFetchingLoop`: per instrument, symbols missing from the token map
are skipped; resolved ones run `processChunks` over the (shared) chunk
list, threading the storage state and accumulating total inserted counts. -/
def runFetchingLoop {σ : Type} (tokenMap : String → Option Int)
    (fetch : Int → Int × Int → Except String (List Candle))
    (store : String → List Candle → σ → Except String Nat × σ)
    (chunks : List (Int × Int)) :
    List String → σ → Nat × σ
  | [], s => (0, s)
  | sym :: rest, s =>
    match tokenMap sym with
    | none => runFetchingLoop tokenMap fetch store chunks rest s
    | some token =>
      let r := processChunks (fetch token) (store sym) chunks s
      let r' := runFetchingLoop tokenMap fetch store chunks rest r.2
      (r.1 + r'.1, r'.2)

/-! ## Concrete sample data for instantiations -/

/-- A sample (well-formed) candle. -/
def sampleCandle : Candle := ⟨1704067200, 100, 110, 90, 105, 1000⟩

/-- A synthetic malformed candle: its negative volume stands for a record
the row-level write rejects. -/
def badCandle : Candle := ⟨1704067201, 100, 110, 90, 105, -1⟩

/-- The row-level success oracle used in concrete instantiations: a candle
succeeds iff its volume is non-negative. -/
def demoOk (c : Candle) : Bool := c.volume ≥ 0

/-- Extract the inserted count of a JSON store call, if it succeeded. -/
def jsonCount (r : Except String (Nat × JsonFile)) : Option Nat :=
  match r with
  | Except.ok (n, _) => some n
  | Except.error _ => none

/-! ## Chunker invariant

`ChunkSpec cs tend s l` says that `l` is a well-formed chunk sequence
starting at `s`: each chunk starts where demanded, stays inside `(s, tend]`,
is no longer than `cs`, and hands over to the rest at `end + 1`; an empty
rest is only reached once the running start has passed `tend`. -/

def ChunkSpec (cs tend : Int) : Int → List (Int × Int) → Prop
  | s, [] => tend ≤ s
  | s, (a, b) :: rest =>
    a = s ∧ s < tend ∧ s < b ∧ b ≤ tend ∧ b - a ≤ cs ∧ ChunkSpec cs tend (b + 1) rest

theorem chunkSizeSeconds_pos (interval : String) : 0 < chunkSizeSeconds interval := by
  unfold chunkSizeSeconds
  split <;> norm_num [IntradayMaxDays, DailyChunkDays]

theorem chunkEnd_bounds {cs tend s : Int} (hcs : 0 < cs) (hst : s < tend) :
    s < chunkEnd cs tend s ∧ chunkEnd cs tend s ≤ tend ∧ chunkEnd cs tend s - s ≤ cs := by
  unfold chunkEnd
  split <;> omega

/-- The fuel `(tend - s).toNat` is enough to drive `chunkLoop` to completion,
and the emitted list satisfies the invariant. -/
theorem chunkLoop_chunkSpec {cs tend : Int} (hcs : 0 < cs) :
    ∀ fuel s, (tend - s).toNat ≤ fuel → ChunkSpec cs tend s (chunkLoop cs tend fuel s) := by
  intro fuel
  induction fuel with
  | zero =>
    intro s hs
    simp only [chunkLoop, ChunkSpec]
    omega
  | succ n ih =>
    intro s hs
    simp only [chunkLoop]
    split
    · next h =>
      obtain ⟨h1, h2, h3⟩ := chunkEnd_bounds hcs h
      exact ⟨rfl, h, h1, h2, h3, ih (chunkEnd cs tend s + 1) (by omega)⟩
    · next h =>
      simp only [ChunkSpec]
      omega

theorem chunkSpec_bounds {cs tend : Int} :
    ∀ {s : Int} {l : List (Int × Int)}, ChunkSpec cs tend s l →
      ∀ c ∈ l, s ≤ c.1 ∧ c.1 < c.2 ∧ c.2 ≤ tend ∧ c.2 - c.1 ≤ cs := by
  intro s l
  induction l generalizing s with
  | nil => intro _ c hc; cases hc
  | cons hd tl ih =>
    obtain ⟨a, b⟩ := hd
    intro hspec c hc
    obtain ⟨ha, hst, hsb, hbt, hba, hrest⟩ := hspec
    rcases List.mem_cons.mp hc with hc | hc
    · subst hc ha
      exact ⟨le_refl _, hsb, hbt, hba⟩
    · have h := ih hrest c hc
      exact ⟨by omega, h.2.1, h.2.2.1, h.2.2.2⟩

theorem chunkSpec_ne_nil {cs tend s : Int} {l : List (Int × Int)}
    (hspec : ChunkSpec cs tend s l) (hst : s < tend) : l ≠ [] := by
  cases l with
  | nil => simp only [ChunkSpec] at hspec; omega
  | cons hd tl => simp

theorem chunkSpec_head {cs tend s : Int} {l : List (Int × Int)}
    (hspec : ChunkSpec cs tend s l) (hst : s < tend) :
    l.head?.map Prod.fst = some s := by
  cases l with
  | nil => simp only [ChunkSpec] at hspec; omega
  | cons hd tl =>
    obtain ⟨a, b⟩ := hd
    obtain ⟨ha, -⟩ := hspec
    simp [ha]

theorem chunkSpec_last {cs tend : Int} :
    ∀ {s : Int} {l : List (Int × Int)}, ChunkSpec cs tend s l → s < tend →
      ∃ a b, l.getLast? = some (a, b) ∧ tend - 1 ≤ b ∧ b ≤ tend := by
  intro s l
  induction l generalizing s with
  | nil => intro hspec hst; simp only [ChunkSpec] at hspec; omega
  | cons hd tl ih =>
    obtain ⟨a, b⟩ := hd
    intro hspec hst
    obtain ⟨ha, h1, h2, h3, h4, hrest⟩ := hspec
    cases tl with
    | nil =>
      simp only [ChunkSpec] at hrest
      exact ⟨a, b, by simp, by omega, h3⟩
    | cons hd' tl' =>
      obtain ⟨a', b'⟩ := hd'
      have hst' : b + 1 < tend := hrest.2.1
      obtain ⟨x, y, hxy, hy1, hy2⟩ := ih hrest hst'
      exact ⟨x, y, by rw [List.getLast?_cons_cons]; exact hxy, hy1, hy2⟩

theorem chunkSpec_chain' {cs tend : Int} :
    ∀ {s : Int} {l : List (Int × Int)}, ChunkSpec cs tend s l →
      l.Chain' (fun c d => c.2 + 1 = d.1) := by
  intro s l
  induction l generalizing s with
  | nil => intro _; exact List.chain'_nil
  | cons hd tl ih =>
    obtain ⟨a, b⟩ := hd
    intro hspec
    obtain ⟨ha, h1, h2, h3, h4, hrest⟩ := hspec
    rw [List.chain'_cons']
    refine ⟨?_, ih hrest⟩
    intro y hy
    cases tl with
    | nil => simp at hy
    | cons hd' tl' =>
      obtain ⟨a', b'⟩ := hd'
      simp only [List.head?_cons, Option.mem_def, Option.some.injEq] at hy
      subst hy
      exact (hrest.1).symm

theorem chunkSpec_pairwise {cs tend : Int} :
    ∀ {s : Int} {l : List (Int × Int)}, ChunkSpec cs tend s l →
      l.Pairwise (fun c d => c.2 < d.1) := by
  intro s l
  induction l generalizing s with
  | nil => intro _; exact List.Pairwise.nil
  | cons hd tl ih =>
    obtain ⟨a, b⟩ := hd
    intro hspec
    obtain ⟨ha, h1, h2, h3, h4, hrest⟩ := hspec
    refine List.Pairwise.cons ?_ (ih hrest)
    intro d hd
    have := (chunkSpec_bounds hrest d hd).1
    simpa using by omega

theorem chunkSpec_cover {cs tend : Int} :
    ∀ {s : Int} {l : List (Int × Int)}, ChunkSpec cs tend s l →
      ∀ x : Int, s ≤ x → x < tend → ∃ c ∈ l, c.1 ≤ x ∧ x ≤ c.2 := by
  intro s l
  induction l generalizing s with
  | nil =>
    intro hspec x hsx hxt
    simp only [ChunkSpec] at hspec
    omega
  | cons hd tl ih =>
    obtain ⟨a, b⟩ := hd
    intro hspec x hsx hxt
    obtain ⟨ha, h1, h2, h3, h4, hrest⟩ := hspec
    by_cases hxb : x ≤ b
    · exact ⟨(a, b), List.mem_cons_self _ _, by omega, hxb⟩
    · obtain ⟨c, hc, hcx⟩ := ih hrest x (by omega) hxt
      exact ⟨c, List.mem_cons_of_mem _ hc, hcx⟩

theorem generateDateChunks_spec (f t : Int) (interval : String) :
    ChunkSpec (chunkSizeSeconds interval) t f (GenerateDateChunks f t interval) := by
  exact chunkLoop_chunkSpec (chunkSizeSeconds_pos interval) _ f (le_refl _)

theorem generateDateChunks_eq_nil_iff (f t : Int) (interval : String) :
    GenerateDateChunks f t interval = [] ↔ t ≤ f := by
  constructor
  · intro h
    by_contra hlt
    exact chunkSpec_ne_nil (generateDateChunks_spec f t interval) (by omega) h
  · intro h
    unfold GenerateDateChunks
    have h0 : (t - f).toNat = 0 := by omega
    rw [h0]
    rfl

/-! ## Helper lemmas for the storage loops -/

theorem length_filter_add_length_filter_not (p : Candle → Bool) (l : List Candle) :
    (l.filter p).length + (l.filter (fun c => !p c)).length = l.length := by
  induction l with
  | nil => rfl
  | cons c rest ih =>
    by_cases h : p c <;> simp [List.filter_cons, h] <;> omega

theorem insertLoop_eq (execOk : Candle → Bool) (sym : String) (l : List Candle) :
    insertLoop execOk sym l
      = ((l.filter execOk).length, (l.filter execOk).map (toRow sym)) := by
  induction l with
  | nil => rfl
  | cons c rest ih =>
    by_cases h : execOk c <;> simp [insertLoop, List.filter_cons, h, ih]

theorem csvWriteLoop_eq (writeOk : Candle → Bool) (sym : String) (l : List Candle) :
    csvWriteLoop writeOk sym l
      = ((l.filter writeOk).length, (l.filter writeOk).map (csvRecord sym)) := by
  induction l with
  | nil => rfl
  | cons c rest ih =>
    by_cases h : writeOk c <;> simp [csvWriteLoop, List.filter_cons, h, ih]

/-! ## The claims -/

/-- C1 (amended): for `from < to`, `GenerateDateChunks` returns a non-empty
chunk sequence that starts at `from`, is chained (end of chunk i plus one
second is the start of chunk i+1), has every chunk inside `[from, to]`, no
longer than the interval's window and pairwise disjoint, and covers every
instant of `[from, to)`; the final chunk ends at `to` or at `to - 1` (the
boundary case exhibited by the counterexample, in which the instant `to`
itself falls in no chunk); zero chunks are returned iff `from` is not
strictly before `to`. -/
theorem claim1_spec (f t : Int) (interval : String) :
    (GenerateDateChunks f t interval = [] ↔ ¬ f < t) ∧
    (f < t →
      GenerateDateChunks f t interval ≠ [] ∧
      (GenerateDateChunks f t interval).head?.map Prod.fst = some f ∧
      (∃ a b, (GenerateDateChunks f t interval).getLast? = some (a, b) ∧
        t - 1 ≤ b ∧ b ≤ t) ∧
      List.Chain' (fun c d => c.2 + 1 = d.1) (GenerateDateChunks f t interval) ∧
      (∀ c ∈ GenerateDateChunks f t interval,
        f ≤ c.1 ∧ c.1 < c.2 ∧ c.2 ≤ t ∧ c.2 - c.1 ≤ chunkSizeSeconds interval) ∧
      (∀ x : Int, f ≤ x → x < t →
        ∃ c ∈ GenerateDateChunks f t interval, c.1 ≤ x ∧ x ≤ c.2) ∧
      List.Pairwise (fun c d => c.2 < d.1) (GenerateDateChunks f t interval)) := by
  have hspec := generateDateChunks_spec f t interval
  constructor
  · rw [generateDateChunks_eq_nil_iff]; omega
  · intro hft
    exact ⟨chunkSpec_ne_nil hspec hft, chunkSpec_head hspec hft,
      chunkSpec_last hspec hft, chunkSpec_chain' hspec,
      fun c hc => chunkSpec_bounds hspec c hc,
      chunkSpec_cover hspec, chunkSpec_pairwise hspec⟩

/-- C1 fails as stated: with `from = 0`, `to = 5184001` seconds (60 days
plus one second) and interval `"minute"`, the single emitted chunk is
`(0, 5184000)`: the final chunk ends at `to - 1`, not at `to`, and the
instant `to` is covered by no chunk. -/
theorem claim1_counterexample :
    (0 : Int) < 5184001 ∧
    GenerateDateChunks 0 5184001 "minute" = [(0, 5184000)] ∧
    (5184000 : Int) ≠ 5184001 := by decide

/-- Instantiation of the amended chunker theorem at
`from = 0, to = 100, interval = "day"`. -/
theorem claim1_witness :
    GenerateDateChunks 0 100 "day" ≠ [] ∧
    (GenerateDateChunks 0 100 "day").head?.map Prod.fst = some 0 ∧
    List.Pairwise (fun c d => c.2 < d.1) (GenerateDateChunks 0 100 "day") :=
  ⟨((claim1_spec 0 100 "day").2 (by decide)).1,
   ((claim1_spec 0 100 "day").2 (by decide)).2.1,
   ((claim1_spec 0 100 "day").2 (by decide)).2.2.2.2.2.2⟩

/-- C5: interval "day" over 2024-01-01..2024-01-05 yields exactly one
chunk; interval "minute" over 2024-01-01..2024-04-01 under the 60-day
intraday cap yields exactly two chunks, the second ending exactly at `to`. -/
theorem claim5_spec :
    (GenerateDateChunks (dateUTC 2024 1 1) (dateUTC 2024 1 5) "day").length = 1 ∧
    (GenerateDateChunks (dateUTC 2024 1 1) (dateUTC 2024 4 1) "minute").length = 2 ∧
    (GenerateDateChunks (dateUTC 2024 1 1) (dateUTC 2024 4 1) "minute").getLast?.map Prod.snd
      = some (dateUTC 2024 4 1) ∧
    IntradayMaxDays = 60 := by decide

/-- C6: an unrecognised interval token silently defaults to 1 minute per
sample, is therefore not daily-or-larger, and is chunked with the 60-day
intraday window. -/
theorem claim6_spec (interval : String)
    (h : interval ∉ (["minute", "3minute", "5minute", "10minute", "15minute",
      "30minute", "60minute", "hour", "day"] : List String)) :
    parseIntervalMinutes interval = 1 ∧
    IsDailyOrLarger interval = false ∧
    chunkSizeSeconds interval = IntradayMaxDays * 24 * 3600 := by
  simp only [List.mem_cons, List.not_mem_nil, or_false, not_or] at h
  obtain ⟨h1, h2, h3, h4, h5, h6, h7, h8, h9⟩ := h
  have hp : parseIntervalMinutes interval = 1 := by
    simp [parseIntervalMinutes, h1, h2, h3, h4, h5, h6, h7, h8, h9]
  have hd : IsDailyOrLarger interval = false := by
    simp [IsDailyOrLarger, hp]
  exact ⟨hp, hd, by simp [chunkSizeSeconds, hd]⟩

/-- Instantiation of the unknown-interval theorem at the unrecognised token
"2minute". -/
theorem claim6_witness :
    ("2minute" : String) ∉ (["minute", "3minute", "5minute", "10minute", "15minute",
      "30minute", "60minute", "hour", "day"] : List String) ∧
    parseIntervalMinutes "2minute" = 1 ∧
    IsDailyOrLarger "2minute" = false :=
  ⟨by decide, (claim6_spec "2minute" (by decide)).1,
    (claim6_spec "2minute" (by decide)).2.1⟩

/-- C2 (amended): partial success holds for the SQLite, DuckDB and CSV
backends - a healthy transaction around a batch of `n` candles of which
exactly one fails at row level returns `count = n - 1`, the `n - 1` valid
records (and nothing else) become durable, and the returned count equals
the number of records written.  The JSON backend does not satisfy the
claim: see the counterexample. -/
theorem claim2_spec (execOk : Candle → Bool) (sym : String)
    (candles : List Candle) (rows : List Row)
    (file : Option (List (List String)))
    (hbad : (candles.filter (fun c => !execOk c)).length = 1) :
    SQLiteStore.StoreCandles ⟨true, true, true⟩ execOk sym candles rows
      = Except.ok (candles.length - 1,
          rows ++ (candles.filter execOk).map (toRow sym)) ∧
    DuckDBStore.StoreCandles ⟨true, true, true⟩ execOk sym candles rows
      = Except.ok (candles.length - 1,
          rows ++ (candles.filter execOk).map (toRow sym)) ∧
    CSVStore.StoreCandles execOk sym file candles
      = Except.ok (candles.length - 1,
          csvBase file ++ (candles.filter execOk).map (csvRecord sym)) ∧
    ((candles.filter execOk).map (toRow sym)).length = candles.length - 1 := by
  have hlen := length_filter_add_length_filter_not execOk candles
  have hcount : (candles.filter execOk).length = candles.length - 1 := by omega
  refine ⟨?_, ?_, ?_, by simp [hcount]⟩ <;>
    simp [SQLiteStore.StoreCandles, DuckDBStore.StoreCandles,
      CSVStore.StoreCandles, insertLoop_eq, csvWriteLoop_eq, hcount]

/-- C2 fails as stated for the JSON backend: a 2-candle batch with exactly
one malformed record does not yield `count = 1` - `json.MarshalIndent`
fails on the whole array, nothing is written, and the call returns the
marshal error for the entire batch. -/
theorem claim2_counterexample :
    jsonCount (JSONStore.StoreCandles demoOk JsonFile.absent
      [sampleCandle, badCandle]) ≠ some 1 ∧
    JSONStore.StoreCandles demoOk JsonFile.absent [sampleCandle, badCandle]
      = Except.error "failed to marshal JSON data" :=
  ⟨by decide, rfl⟩

/-- Instantiation of the partial-success theorem on a 2-candle batch with
one failing record, against the SQLite store with empty table. -/
theorem claim2_witness :
    ([sampleCandle, badCandle].filter (fun c => !demoOk c)).length = 1 ∧
    SQLiteStore.StoreCandles ⟨true, true, true⟩ demoOk "SBIN"
        [sampleCandle, badCandle] []
      = Except.ok ([sampleCandle, badCandle].length - 1,
          [] ++ ([sampleCandle, badCandle].filter demoOk).map (toRow "SBIN")) :=
  ⟨by decide,
    (claim2_spec demoOk "SBIN" [sampleCandle, badCandle] [] none (by decide)).1⟩

/-- C3 (amended): the rate-limiter wait inside `GetHistoricalData` is
performed on `context.Background()`, which is never cancelled, so the wait
never returns a cancellation failure and the call's outcome is entirely
independent of the caller's context. -/
theorem claim3_spec (callerCtx : Context) (api : Except String (List Candle)) :
    limiterWait Context.background = Except.ok () ∧
    getHistoricalData callerCtx api = getHistoricalData Context.background api :=
  ⟨rfl, rfl⟩

/-- C3 fails as stated: with the caller's context already cancelled,
`GetHistoricalData` still waits on `context.Background()` and returns the
API result - no cancellation-aware failure is produced. -/
theorem claim3_counterexample :
    (Context.mk true).cancelled = true ∧
    getHistoricalData (Context.mk true) (Except.ok [sampleCandle])
      = Except.ok [sampleCandle] :=
  ⟨rfl, rfl⟩

/-- C4: a chunk whose fetch errors, or whose fetch returns zero candles, is
skipped without any store call - the run state is exactly as if the chunk
were absent - and processing continues identically with the remaining
chunks and with all instruments of the run. -/
theorem claim4_spec {σ : Type}
    (fetch : Int × Int → Except String (List Candle))
    (store : List Candle → σ → Except String Nat × σ)
    (chunk : Int × Int) (rest : List (Int × Int)) (s : σ)
    (tokenMap : String → Option Int)
    (fetchI : Int → Int × Int → Except String (List Candle))
    (storeI : String → List Candle → σ → Except String Nat × σ)
    (chunksRest : List (Int × Int)) (instruments : List String) (s' : σ)
    (h1 : (∃ e, fetch chunk = Except.error e) ∨ fetch chunk = Except.ok [])
    (h2 : ∀ token, (∃ e, fetchI token chunk = Except.error e)
      ∨ fetchI token chunk = Except.ok []) :
    processChunks fetch store (chunk :: rest) s = processChunks fetch store rest s ∧
    runFetchingLoop tokenMap fetchI storeI (chunk :: chunksRest) instruments s'
      = runFetchingLoop tokenMap fetchI storeI chunksRest instruments s' := by
  have hskip : ∀ (fetch' : Int × Int → Except String (List Candle))
      (store' : List Candle → σ → Except String Nat × σ)
      (rest' : List (Int × Int)) (st : σ),
      ((∃ e, fetch' chunk = Except.error e) ∨ fetch' chunk = Except.ok []) →
      processChunks fetch' store' (chunk :: rest') st
        = processChunks fetch' store' rest' st := by
    intro fetch' store' rest' st h
    rcases h with ⟨e, he⟩ | he <;> simp [processChunks, he]
  refine ⟨hskip fetch store rest s h1, ?_⟩
  induction instruments generalizing s' with
  | nil => rfl
  | cons sym moreSyms ih =>
    cases htok : tokenMap sym with
    | none =>
      simp only [runFetchingLoop, htok]
      exact ih _
    | some token =>
      simp only [runFetchingLoop, htok]
      rw [hskip (fetchI token) (storeI sym) chunksRest s' (h2 token), ih _]

/-- Instantiation of the skip theorem: an always-erroring fetch over one
chunk and one resolvable instrument, with a unit store on state `Nat`. -/
theorem claim4_witness :
    processChunks (fun _ => Except.error "API error")
        (fun _ s => (Except.ok 0, s)) [((0 : Int), (1 : Int))] (0 : Nat)
      = processChunks (fun _ => Except.error "API error")
        (fun _ s => (Except.ok 0, s)) [] (0 : Nat) ∧
    runFetchingLoop (fun _ => some 1) (fun _ _ => Except.error "API error")
        (fun _ _ s => (Except.ok 0, s)) [((0 : Int), (1 : Int))] ["SBIN"] (0 : Nat)
      = runFetchingLoop (fun _ => some 1) (fun _ _ => Except.error "API error")
        (fun _ _ s => (Except.ok 0, s)) [] ["SBIN"] (0 : Nat) :=
  claim4_spec (σ := Nat) _ _ ((0 : Int), (1 : Int)) [] 0 _ _ _ [] ["SBIN"] 0
    (Or.inl ⟨"API error", rfl⟩) (fun _ => Or.inl ⟨"API error", rfl⟩)

/-- C7: both file-based backends merge with a pre-existing per-instrument
file instead of overwriting it, and the CSV header is written exactly on
first creation and never on append: appending to an existing CSV file adds
only data records after the existing content; creating a new one writes the
header once, followed by the records; the JSON store rewrites the file as
old records followed by new ones. -/
theorem claim7_spec (writeOk marshalOk : Candle → Bool) (sym : String)
    (existingCsv : List (List String)) (existingJson : List Candle)
    (candles : List Candle)
    (hm : (existingJson ++ candles).all marshalOk = true) :
    CSVStore.StoreCandles writeOk sym (some existingCsv) candles
      = Except.ok ((candles.filter writeOk).length,
          existingCsv ++ (candles.filter writeOk).map (csvRecord sym)) ∧
    CSVStore.StoreCandles writeOk sym none candles
      = Except.ok ((candles.filter writeOk).length,
          csvHeader :: (candles.filter writeOk).map (csvRecord sym)) ∧
    JSONStore.StoreCandles marshalOk (JsonFile.valid existingJson) candles
      = Except.ok (candles.length, JsonFile.valid (existingJson ++ candles)) := by
  refine ⟨?_, ?_, ?_⟩ <;>
    simp [CSVStore.StoreCandles, JSONStore.StoreCandles, csvWriteLoop_eq,
      csvBase, jsonExistingData, hm]

/-- Instantiation of the merge theorem: appending one candle to an existing
one-record CSV file and to an existing one-record JSON file. -/
theorem claim7_witness :
    (([sampleCandle] ++ [sampleCandle]).all demoOk = true) ∧
    CSVStore.StoreCandles demoOk "SBIN"
        (some [csvHeader, csvRecord "SBIN" sampleCandle]) [sampleCandle]
      = Except.ok (([sampleCandle].filter demoOk).length,
          [csvHeader, csvRecord "SBIN" sampleCandle]
            ++ ([sampleCandle].filter demoOk).map (csvRecord "SBIN")) ∧
    JSONStore.StoreCandles demoOk (JsonFile.valid [sampleCandle]) [sampleCandle]
      = Except.ok ([sampleCandle].length, JsonFile.valid ([sampleCandle] ++ [sampleCandle])) :=
  ⟨by decide,
    (claim7_spec demoOk demoOk "SBIN" [csvHeader, csvRecord "SBIN" sampleCandle]
      [sampleCandle] [sampleCandle] (by decide)).1,
    (claim7_spec demoOk demoOk "SBIN" [csvHeader, csvRecord "SBIN" sampleCandle]
      [sampleCandle] [sampleCandle] (by decide)).2.2⟩

/-- C8: `Init` is idempotent for all four backends - the second call in
succession returns no error and leaves the state exactly as the first call
left it: no duplicate table, directory or file is created. -/
theorem claim8_spec (s : DBState) (d : DirState) :
    (∃ s₁, SQLiteStore.Init true s = Except.ok s₁
      ∧ SQLiteStore.Init true s₁ = Except.ok s₁) ∧
    (∃ s₁, DuckDBStore.Init true s = Except.ok s₁
      ∧ DuckDBStore.Init true s₁ = Except.ok s₁) ∧
    (∃ d₁, CSVStore.Init true d = Except.ok d₁
      ∧ CSVStore.Init true d₁ = Except.ok d₁) ∧
    (∃ d₁, JSONStore.Init true d = Except.ok d₁
      ∧ JSONStore.Init true d₁ = Except.ok d₁) :=
  ⟨⟨_, rfl, rfl⟩, ⟨_, rfl, rfl⟩, ⟨_, rfl, rfl⟩, ⟨_, rfl, rfl⟩⟩

/-- C9: when the existing per-instrument JSON file does not parse, the
parse error is silently ignored, the old content is treated as empty, and
the file is rewritten holding only the new batch - all previously stored
records are discarded - while the call still returns `len(candles)` and no
error. -/
theorem claim9_spec (marshalOk : Candle → Bool) (candles : List Candle)
    (hm : candles.all marshalOk = true) :
    JSONStore.StoreCandles marshalOk JsonFile.corrupt candles
      = Except.ok (candles.length, JsonFile.valid candles) := by
  simp [JSONStore.StoreCandles, jsonExistingData, hm]

/-- Instantiation of the corrupt-file theorem on a one-candle batch. -/
theorem claim9_witness :
    ([sampleCandle].all demoOk = true) ∧
    JSONStore.StoreCandles demoOk JsonFile.corrupt [sampleCandle]
      = Except.ok ([sampleCandle].length, JsonFile.valid [sampleCandle]) :=
  ⟨by decide, claim9_spec demoOk [sampleCandle] (by decide)⟩

/-- C10: a storage-type token outside {duckdb, sqlite, json, csv} is never
rejected by `NewStore`: the default arm silently hands it to the DuckDB
constructor, behaving exactly like an explicit "duckdb" selector. -/
theorem claim10_spec (openOk : Bool) (storageType : String)
    (h : storageType ∉ (["duckdb", "sqlite", "json", "csv"] : List String)) :
    NewStore openOk storageType = NewStore openOk "duckdb" ∧
    (openOk = true → NewStore openOk storageType = Except.ok StoreKind.duckdb) := by
  simp only [List.mem_cons, List.not_mem_nil, or_false, not_or] at h
  obtain ⟨h1, h2, h3, h4⟩ := h
  constructor
  · simp [NewStore, h1, h2, h3, h4]
  · intro ho
    subst ho
    simp [NewStore, h1, h2, h3, h4]

/-- Instantiation of the fallback theorem at the unknown token "postgres". -/
theorem claim10_witness :
    ("postgres" : String) ∉ (["duckdb", "sqlite", "json", "csv"] : List String) ∧
    NewStore true "postgres" = Except.ok StoreKind.duckdb :=
  ⟨by decide, (claim10_spec true "postgres" (by decide)).2 rfl⟩

end Zerodha

